import Mathlib

/-!
Verification of the Langevin-dynamics sampler in
`src/score_models/sampler.py`, as a shallow embedding in Lean.

Modelling choices, fixed once for the whole development:

* Scalars (`epsilon`, `init_scale`) live in a commutative ring `α`; the
  only use of `np.sqrt` is `np.sqrt(2 * epsilon)`, so it is modelled by an
  arbitrary function `sqrt : α → α`.
* A chain state — an array of shape `sample_shape[1:]` — is an element of
  an additive commutative group `S` that is a module over `α`: array
  addition is `+`, broadcast scalar multiplication is `•`.  The per-sample
  shape is therefore carried at the type level; batched arrays, whose
  leading axis the code stacks and maps over, are `List`s of states.
* JAX pseudorandomness is deterministic: `random.normal` and
  `random.split` are pure functions of the key.  They are modelled by a
  `JaxRandom` structure whose two length fields record the JAX guarantees
  that `random.split(key, n)` has `n` entries and that a normal draw of
  shape `(n, *D)` has leading dimension `n`.
* `jax.vmap` maps a function over the leading axis of its arguments and
  raises an error when their mapped-axis sizes disagree; it is modelled by
  `vmap2`, returning `Except`.
* `np.vstack` applied to the `(n_samples, *D)` array stacked by
  `lax.scan` unpacks it along the leading axis, applies `atleast_2d` to
  every slice and concatenates the results along axis 0.  It is modelled
  by `vstack rows`, where the parameter `rows x` lists the leading-axis
  rows of `atleast_2d x` for a state `x` of shape `D`: a singleton `[x]`
  exactly when `D` has rank 1 (then `vstack` is the identity and `Row`
  is the state type itself), a singleton wrapping of the scalar when `D`
  has rank 0 (shape `(1, 1)`), and the list of the `d1` leading-axis
  slices when `D = (d1, d2, ...)` has rank 2 or more.
* `raise ValueError` is modelled by `Except.error SamplerError.valueError`.
-/

namespace ScoreModels

/-- Deterministic model of the JAX pseudorandom primitives the sampler
uses.  `normal k` is `random.normal(k, shape=sample_shape[1:])`,
`normalB k n` is `random.normal(k, shape=(n, *sample_shape[1:]))`, and
`split k n` is `random.split(k, n)`.  The two laws are the JAX shape
guarantees for `split` and for the leading axis of a batched draw. -/
structure JaxRandom (K S : Type) where
  normal : K → S
  normalB : K → Nat → List S
  split : K → Nat → List K
  normalB_length : ∀ k n, (normalB k n).length = n
  split_length : ∀ k n, (split k n).length = n

/-- Errors the sampler can raise: the explicit `ValueError` when both
`starter_xs` and `sample_shape` are `None`, and the error `jax.vmap`
raises when the leading dimensions of its mapped arguments disagree. -/
inductive SamplerError : Type
  | valueError : SamplerError
  | vmapError : SamplerError
  deriving DecidableEq

/-- Model of `jax.lax.scan`: thread a carry through the list `xs`,
collecting the second components in order and returning the final carry
with the stacked outputs. -/
def scan {C X Y : Type} (f : C → X → C × Y) : C → List X → C × List Y
  | c, [] => (c, [])
  | c, x :: xs =>
    let r := f c x
    let rest := scan f r.1 xs
    (rest.1, r.2 :: rest.2)

variable {α S Row K P : Type} [CommRing α] [AddCommGroup S] [Module α S]

/-- The scannable closure `inner` from `sampler.py`: one step of Langevin
dynamics.  `draw = random.normal(key, shape=sample_shape[1:])`;
`new_x = prev_x + epsilon * score_func(prev_x) + np.sqrt(2 * epsilon) * draw`;
returns `(new_x, prev_x)`. -/
def inner (R : JaxRandom K S) (sqrt : α → α) (epsilon : α)
    (score_func : S → S) (prev_x : S) (key : K) : S × S :=
  let draw := R.normal key
  let new_x := prev_x + epsilon • score_func prev_x + sqrt (2 * epsilon) • draw
  (new_x, prev_x)

/-- Model of `np.vstack` applied to the scan-stacked `(n_samples, *D)`
trajectory: numpy unpacks the array along its leading axis into the
`n_samples` states, applies `atleast_2d` to each and concatenates along
axis 0; the result's leading-axis slices are therefore the concatenation
of the `atleast_2d` rows (`rows`) of every state, in order. -/
def vstack (rows : S → List Row) (xs : List S) : List Row :=
  (xs.map rows).flatten

/-- `langevin_dynamics_one_chain` from `sampler.py`: split the chain key
into `n_samples` per-step keys, scan `inner` over them from `x`, and
return the final state with `np.vstack` of the stacked trajectory;
`rows` is the `atleast_2d` row decomposition fixed by the per-sample
shape (`rows x = [x]` exactly in the rank-1 case). -/
def langevin_dynamics_one_chain (R : JaxRandom K S) (rows : S → List Row)
    (sqrt : α → α) (epsilon : α) (score_func : S → S) (n_samples : Nat)
    (x : S) (key : K) : S × List Row :=
  let keys := R.split key n_samples
  let fx := scan (inner R sqrt epsilon score_func) x keys
  (fx.1, vstack rows fx.2)

/-- Model of `jax.vmap` for a function of two batched arguments: JAX
raises when the mapped-axis sizes disagree, otherwise it applies `f` to
corresponding slices and stacks the results in order. -/
def vmap2 {A B C : Type} (f : A → B → C) (xs : List A) (ks : List B) :
    Except SamplerError (List C) :=
  if xs.length = ks.length then Except.ok (List.zipWith f xs ks)
  else Except.error SamplerError.vmapError

/-- `langevin_dynamics` from `sampler.py`.  The defensive check mirrors
lines 60-61; when `starter_xs` is `None` the starting batch is
`random.normal(key, shape=(n_chains, *sample_shape[1:])) * init_scale`
(the patch-up of `sample_shape` from `starter_xs.shape` on lines 63-64
only feeds draw shapes, which are type-level here); `score_func` is bound
to `params` as in `functools.partial`; the top-level key is split into
`n_chains` per-chain keys and the one-chain function is `vmap`ped over
the starting batch and those keys.  Returns
`(starter_xs, final_samples, samples)`. -/
def langevin_dynamics (R : JaxRandom K S) (rows : S → List Row)
    (sqrt : α → α)
    (n_chains : Nat) (n_samples : Nat) (key : K) (epsilon : α)
    (score_func : P → S → S) (params : P) (init_scale : α)
    (starter_xs : Option (List S)) (sample_shape : Option (List Nat)) :
    Except SamplerError (List S × List S × List (List Row)) :=
  if starter_xs.isNone && sample_shape.isNone then
    Except.error SamplerError.valueError
  else
    let starter : List S :=
      match starter_xs with
      | some xs => xs
      | none => (R.normalB key n_chains).map fun v => init_scale • v
    let score := score_func params
    let keys := R.split key n_chains
    match vmap2
        (langevin_dynamics_one_chain R rows sqrt epsilon score n_samples)
        starter keys with
    | Except.error e => Except.error e
    | Except.ok results =>
      Except.ok (starter, results.map Prod.fst, results.map Prod.snd)

/-- The one-step state update performed by `inner`: its carry (first)
component, as a function of the previous state and the per-step key. -/
def stepOnce (R : JaxRandom K S) (sqrt : α → α) (epsilon : α)
    (score_func : S → S) (x : S) (key : K) : S :=
  x + epsilon • score_func x + sqrt (2 * epsilon) • R.normal key

/-- The state of one chain after `t` steps of `inner` from `x`, consuming
the first `t` of its per-step keys. -/
def chainState (R : JaxRandom K S) (sqrt : α → α) (epsilon : α)
    (score_func : S → S) (x : S) (keys : List K) (t : Nat) : S :=
  (keys.take t).foldl (stepOnce R sqrt epsilon score_func) x

/-- Scanning `inner` along `ks` yields the fold of the one-step update as
final carry, and stacks the pre-update states in chronological order. -/
lemma scan_inner (R : JaxRandom K S) (sqrt : α → α) (epsilon : α)
    (score_func : S → S) (x : S) (ks : List K) :
    scan (inner R sqrt epsilon score_func) x ks
      = (ks.foldl (stepOnce R sqrt epsilon score_func) x,
         (List.range ks.length).map fun t =>
           (ks.take t).foldl (stepOnce R sqrt epsilon score_func) x) := by
  induction ks generalizing x with
  | nil => simp [scan]
  | cons k ks ih =>
    simp [scan, ih, List.range_succ_eq_map, List.map_map, Function.comp,
      inner, stepOnce]

omit [AddCommGroup S] in
/-- When every state is its own single `atleast_2d` row — the rank-1
per-sample shape case — `np.vstack` leaves the stacked trajectory
unchanged. -/
lemma vstack_id (rows : S → List S) (hrows : ∀ y, rows y = [y]) :
    ∀ l : List S, vstack rows l = l := by
  intro l
  induction l with
  | nil => rfl
  | cons a l ih =>
    simp only [vstack] at ih
    simp only [vstack, List.map_cons, List.flatten_cons, hrows,
      List.singleton_append, ih]

/-- Characterization of one chain: the final state is the `n_samples`-fold
iterate of the one-step update, and the returned trajectory is
`np.vstack` of the list of the iterates `0, 1, ..., n_samples - 1`, in
order. -/
lemma one_chain_spec (R : JaxRandom K S) (rows : S → List Row)
    (sqrt : α → α) (epsilon : α)
    (score_func : S → S) (n_samples : Nat) (x : S) (key : K) :
    langevin_dynamics_one_chain R rows sqrt epsilon score_func n_samples
        x key
      = (chainState R sqrt epsilon score_func x (R.split key n_samples)
           n_samples,
         vstack rows ((List.range n_samples).map fun t =>
           chainState R sqrt epsilon score_func x (R.split key n_samples)
             t))
      := by
  have hl := R.split_length key n_samples
  simp only [langevin_dynamics_one_chain, scan_inner, hl, chainState]
  rw [List.take_of_length_le hl.le]

/-- In the rank-1 case the trajectory returned by one chain has exactly
`n_samples` entries. -/
lemma one_chain_snd_length (R : JaxRandom K S) (rows : S → List S)
    (hrows : ∀ y, rows y = [y]) (sqrt : α → α) (epsilon : α)
    (score_func : S → S) (n_samples : Nat) (x : S) (key : K) :
    (langevin_dynamics_one_chain R rows sqrt epsilon score_func n_samples
        x key).2.length = n_samples := by
  rw [one_chain_spec, vstack_id rows hrows]
  simp

/-- Unfolding of the sampler when a starting batch is supplied: `vmap`
checks its leading dimension against the `n_chains` per-chain keys and
otherwise the batch is used as is. -/
lemma ld_some_eq (R : JaxRandom K S) (rows : S → List Row) (sqrt : α → α)
    (n_chains n_samples : Nat) (key : K) (epsilon : α)
    (score_func : P → S → S) (params : P) (init_scale : α)
    (xs : List S) (sample_shape : Option (List Nat)) :
    langevin_dynamics R rows sqrt n_chains n_samples key epsilon score_func
        params init_scale (some xs) sample_shape
      = if xs.length = n_chains
        then Except.ok (xs,
          (List.zipWith
            (langevin_dynamics_one_chain R rows sqrt epsilon
              (score_func params)
              n_samples) xs (R.split key n_chains)).map Prod.fst,
          (List.zipWith
            (langevin_dynamics_one_chain R rows sqrt epsilon
              (score_func params)
              n_samples) xs (R.split key n_chains)).map Prod.snd)
        else Except.error SamplerError.vmapError := by
  by_cases h : xs.length = n_chains <;>
    simp [langevin_dynamics, vmap2, R.split_length, h]

/-- Unfolding of the sampler when the starting batch is drawn: the batch
is `init_scale` times a normal draw from the top-level key, its leading
dimension is `n_chains`, and the run always succeeds. -/
lemma ld_none_eq (R : JaxRandom K S) (rows : S → List Row) (sqrt : α → α)
    (n_chains n_samples : Nat) (key : K) (epsilon : α)
    (score_func : P → S → S) (params : P) (init_scale : α)
    (sh : List Nat) :
    langevin_dynamics R rows sqrt n_chains n_samples key epsilon score_func
        params init_scale none (some sh)
      = Except.ok ((R.normalB key n_chains).map fun v => init_scale • v,
          (List.zipWith
            (langevin_dynamics_one_chain R rows sqrt epsilon
              (score_func params)
              n_samples)
            ((R.normalB key n_chains).map fun v => init_scale • v)
            (R.split key n_chains)).map Prod.fst,
          (List.zipWith
            (langevin_dynamics_one_chain R rows sqrt epsilon
              (score_func params)
              n_samples)
            ((R.normalB key n_chains).map fun v => init_scale • v)
            (R.split key n_chains)).map Prod.snd) := by
  simp [langevin_dynamics, vmap2, R.split_length, R.normalB_length]

/-- A concrete, fully computable instance of the pseudorandom model, used
only to witness the theorems below at concrete inputs. -/
def testRandom : JaxRandom Nat Int where
  normal k := (k : Int)
  normalB k n := (List.range n).map fun i => ((k + i : Nat) : Int)
  split k n := (List.range n).map fun i => k + i + 1
  normalB_length k n := by simp
  split_length k n := by simp

/-- The row decomposition of a rank-1 per-sample shape on integer
states: `atleast_2d` leaves rank-1 arrays unchanged, so each state is
its own single row and `np.vstack` is the identity. -/
def rows1 : Int → List Int := fun x => [x]

/-- A constant 2 × 2 integer matrix: a concrete chain state whose
per-sample shape `(2, 2)` has rank 2. -/
def mat (a : Int) : Fin 2 → Fin 2 → Int := fun _ _ => a

/-- A constant length-2 integer vector: one leading-axis row of a 2 × 2
matrix state. -/
def row (a : Int) : Fin 2 → Int := fun _ => a

/-- The `atleast_2d` row decomposition of a rank-2 state: its two
leading-axis slices (`atleast_2d` leaves rank-2 arrays unchanged, and
`np.vstack` concatenates these rows across the whole trajectory). -/
def rows2 (x : Fin 2 → Fin 2 → Int) : List (Fin 2 → Int) := [x 0, x 1]

/-- A concrete, fully computable pseudorandom model over 2 × 2 matrix
states, used to refute the trajectory-shape claims at a rank-2
per-sample shape. -/
def testRandom2 : JaxRandom Nat (Fin 2 → Fin 2 → Int) where
  normal k := mat k
  normalB k n := (List.range n).map fun i : Nat => mat (k + i)
  split k n := (List.range n).map fun i => k + i + 1
  normalB_length k n := by simp
  split_length k n := by simp

/-- The chain state after `t + 1` steps is the `inner` update of the
state after `t` steps, consuming the `t`-th per-step key (the default
value of `getD` is irrelevant since `t` is in range). -/
lemma chainState_succ (R : JaxRandom K S) (sqrt : α → α) (epsilon : α)
    (score_func : S → S) (x : S) (keys : List K) (t : Nat)
    (ht : t < keys.length) (k0 : K) :
    chainState R sqrt epsilon score_func x keys (t + 1)
      = stepOnce R sqrt epsilon score_func
          (chainState R sqrt epsilon score_func x keys t)
          (keys.getD t k0) := by
  unfold chainState
  rw [List.take_succ, List.foldl_append]
  simp [List.getD_eq_getElem?_getD, List.getElem?_eq_getElem ht]

/-- C1: one integration step returns exactly
`x' = x + epsilon * score(x) + sqrt(2 * epsilon) * z`, where `z` is the
standard-normal draw obtained from the step key, together with the
pre-step state; and the step is a pure function of `(x, z, epsilon,
score)`: any two keys (even under different pseudorandom models) whose
normal draws coincide produce identical steps. -/
theorem c1_step_integrator (R R' : JaxRandom K S) (sqrt : α → α)
    (epsilon : α) (score_func : S → S) (x : S) (key key' : K)
    (h : R.normal key = R'.normal key') :
    inner R sqrt epsilon score_func x key
      = (x + epsilon • score_func x + sqrt (2 * epsilon) • R.normal key, x)
    ∧ inner R sqrt epsilon score_func x key
      = inner R' sqrt epsilon score_func x key' := by
  refine ⟨rfl, ?_⟩
  unfold inner
  rw [h]

/-- Witness for C1 at a concrete input. -/
theorem c1_step_integrator_witness :
    inner testRandom id (2 : Int) (fun y => y + 1) 5 0
      = (5 + (2 : Int) • (fun y => y + 1) (5 : Int)
          + id (2 * 2 : Int) • testRandom.normal 0, 5)
    ∧ inner testRandom id (2 : Int) (fun y => y + 1) 5 0
      = inner testRandom id (2 : Int) (fun y => y + 1) 5 0 :=
  c1_step_integrator testRandom testRandom id 2 (fun y => y + 1) 5 0 0 rfl

/-- C2 (amended to rank-1 per-sample shapes): when each state is its own
single `vstack` row — the rank-1 case, as in the spec's example shapes —
one chain run for `n_samples` steps returns the trajectory
`[x_0, x_1, ..., x_{n_samples - 1}]` of pre-update states in order
(`n_samples` entries, entry `t` being the state recorded immediately
before its update) together with the final state `x_{n_samples}`, which
is the one further update and is not among the recorded entries; here
`x_0 = x` and `x_{t+1}` is the `inner` update of `x_t`.  For rank-0 or
rank-2-and-higher per-sample shapes `np.vstack` reshapes the stacked
trajectory and the original claim fails (see the counterexample). -/
theorem c2_chain_driver (R : JaxRandom K S) (rows : S → List S)
    (hrows : ∀ y, rows y = [y]) (sqrt : α → α) (epsilon : α)
    (score_func : S → S) (n_samples : Nat) (x : S) (key : K)
    (t : Nat) (ht : t < n_samples) (k0 : K) :
    langevin_dynamics_one_chain R rows sqrt epsilon score_func n_samples
        x key
      = (chainState R sqrt epsilon score_func x (R.split key n_samples)
           n_samples,
         (List.range n_samples).map fun s =>
           chainState R sqrt epsilon score_func x (R.split key n_samples) s)
    ∧ chainState R sqrt epsilon score_func x (R.split key n_samples) 0 = x
    ∧ chainState R sqrt epsilon score_func x (R.split key n_samples) (t + 1)
      = (inner R sqrt epsilon score_func
          (chainState R sqrt epsilon score_func x (R.split key n_samples) t)
          ((R.split key n_samples).getD t k0)).1 := by
  have h1 := one_chain_spec R rows sqrt epsilon score_func n_samples x key
  rw [vstack_id rows hrows] at h1
  refine ⟨h1, by simp [chainState], ?_⟩
  exact chainState_succ R sqrt epsilon score_func x (R.split key n_samples)
    t (by rw [R.split_length]; exact ht) k0

/-- Witness for C2 at a concrete input. -/
theorem c2_chain_driver_witness :
    langevin_dynamics_one_chain testRandom rows1 id (1 : Int) (fun y => y)
        1 1 0
      = (chainState testRandom id (1 : Int) (fun y => y) 1
           (testRandom.split 0 1) 1,
         (List.range 1).map fun s =>
           chainState testRandom id (1 : Int) (fun y => y) 1
             (testRandom.split 0 1) s)
    ∧ chainState testRandom id (1 : Int) (fun y => y) 1
        (testRandom.split 0 1) 0 = 1
    ∧ chainState testRandom id (1 : Int) (fun y => y) 1
        (testRandom.split 0 1) (0 + 1)
      = (inner testRandom id (1 : Int) (fun y => y)
          (chainState testRandom id (1 : Int) (fun y => y) 1
            (testRandom.split 0 1) 0)
          ((testRandom.split 0 1).getD 0 0)).1 :=
  c2_chain_driver testRandom rows1 (fun _ => rfl) id 1 (fun y => y) 1 1 0 0
    (by decide) 0

/-- Counterexample to C2 as frozen: at the rank-2 per-sample shape
`(2, 2)`, a one-step chain (`n_samples = 1`) returns a trajectory with
two entries — `np.vstack` has concatenated the leading-axis rows of the
single recorded state — so the returned trajectory is not the sequence
`[x_0]` of pre-update states with one entry per step. -/
theorem c2_chain_driver_counterexample :
    ((langevin_dynamics_one_chain testRandom2 rows2 id (1 : Int)
        (fun y => y) 1 (mat 0) 0).2).length ≠ 1 := by
  decide

/-- C3: the sampler returns the configuration `ValueError`, before any
sampling work, exactly when `starter_xs` and `sample_shape` are both
`None`; in every other configuration that error is not raised. -/
theorem c3_config_error (R : JaxRandom K S) (rows : S → List Row)
    (sqrt : α → α)
    (n_chains n_samples : Nat) (key : K) (epsilon : α)
    (score_func : P → S → S) (params : P) (init_scale : α)
    (starter_xs : Option (List S)) (sample_shape : Option (List Nat)) :
    langevin_dynamics R rows sqrt n_chains n_samples key epsilon score_func
        params init_scale starter_xs sample_shape
      = Except.error SamplerError.valueError
    ↔ starter_xs = none ∧ sample_shape = none := by
  constructor
  · intro h
    cases starter_xs with
    | none =>
      cases sample_shape with
      | none => exact ⟨rfl, rfl⟩
      | some sh => rw [ld_none_eq] at h; exact absurd h (by simp)
    | some xs =>
      rw [ld_some_eq] at h
      by_cases hl : xs.length = n_chains <;> simp [hl] at h
  · rintro ⟨h1, h2⟩
    subst h1
    subst h2
    rfl

/-- Every element of a `zipWith` is the image of some pair of elements. -/
lemma exists_of_mem_zipWith {A B C : Type} {f : A → B → C} :
    ∀ {l1 : List A} {l2 : List B} {c : C},
      c ∈ List.zipWith f l1 l2 → ∃ a b, c = f a b := by
  intro l1
  induction l1 with
  | nil =>
    intro l2 c hc
    simp at hc
  | cons a l1 ih =>
    intro l2 c hc
    cases l2 with
    | nil => simp at hc
    | cons b l2 =>
      rcases List.mem_cons.mp hc with h | h
      · exact ⟨a, b, h⟩
      · exact ih h

/-- C4: the sampler is deterministic: two invocations on equal inputs
(key, chain count, step count, epsilon, score function, params,
init scale, starter batch and sample shape) return identical
(starting batch, final samples, samples). -/
theorem c4_determinism (R : JaxRandom K S) (rows : S → List Row)
    (sqrt : α → α)
    (n_chains n_chains2 n_samples n_samples2 : Nat) (key key2 : K)
    (epsilon epsilon2 : α) (score_func : P → S → S) (params params2 : P)
    (init_scale init_scale2 : α) (starter_xs starter_xs2 : Option (List S))
    (sample_shape sample_shape2 : Option (List Nat))
    (h1 : n_chains = n_chains2) (h2 : n_samples = n_samples2)
    (h3 : key = key2) (h4 : epsilon = epsilon2) (h5 : params = params2)
    (h6 : init_scale = init_scale2) (h7 : starter_xs = starter_xs2)
    (h8 : sample_shape = sample_shape2) :
    langevin_dynamics R rows sqrt n_chains n_samples key epsilon score_func
        params init_scale starter_xs sample_shape
      = langevin_dynamics R rows sqrt n_chains2 n_samples2 key2 epsilon2
          score_func params2 init_scale2 starter_xs2 sample_shape2 := by
  subst h1 h2 h3 h4 h5 h6 h7 h8
  rfl

/-- Witness for C4 at a concrete input. -/
theorem c4_determinism_witness :
    langevin_dynamics testRandom rows1 id 1 1 0 (1 : Int) (fun _ x => x)
        (0 : Int) 1 (some [2]) none
      = langevin_dynamics testRandom rows1 id 1 1 0 (1 : Int)
          (fun _ x => x) (0 : Int) 1 (some [2]) none :=
  c4_determinism testRandom rows1 id 1 1 1 1 0 0 1 1 (fun _ x => x) 0 0 1 1
    (some [2]) (some [2]) none none rfl rfl rfl rfl rfl rfl rfl rfl

/-- C5 (amended to rank-1 per-sample shapes): on every successful call
with a rank-1 per-sample shape (each state its own single `vstack` row),
the starting batch and the final samples have leading dimension
`n_chains`, and the samples array is `n_chains` trajectories of
`n_samples` entries each (per-sample dimensionality is carried by the
state type `S`).  For rank-0 per-sample shapes the code returns samples
of shape `(n_chains, n_samples, 1)` and for rank-2-and-higher shapes
`(n_chains, n_samples * d1, d2, ...)`, so the original claim fails (see
the counterexample). -/
theorem c5_shapes (R : JaxRandom K S) (rows : S → List S)
    (hrows : ∀ y, rows y = [y]) (sqrt : α → α)
    (n_chains n_samples : Nat) (key : K) (epsilon : α)
    (score_func : P → S → S) (params : P) (init_scale : α)
    (starter_xs : Option (List S)) (sample_shape : Option (List Nat))
    (B F : List S) (Smp : List (List S))
    (h : langevin_dynamics R rows sqrt n_chains n_samples key epsilon
        score_func params init_scale starter_xs sample_shape
      = Except.ok (B, F, Smp)) :
    B.length = n_chains ∧ F.length = n_chains ∧ Smp.length = n_chains
    ∧ ∀ row ∈ Smp, row.length = n_samples := by
  have main : ∀ xs : List S, xs.length = n_chains →
      B = xs
      → F = (List.zipWith (langevin_dynamics_one_chain R rows sqrt epsilon
              (score_func params) n_samples) xs (R.split key n_chains)).map
              Prod.fst
      → Smp = (List.zipWith (langevin_dynamics_one_chain R rows sqrt
              epsilon
              (score_func params) n_samples) xs (R.split key n_chains)).map
              Prod.snd
      → B.length = n_chains ∧ F.length = n_chains ∧ Smp.length = n_chains
        ∧ ∀ row ∈ Smp, row.length = n_samples := by
    intro xs hxs hB hF hSmp
    subst hB hF hSmp
    refine ⟨hxs, ?_, ?_, ?_⟩
    · simp [R.split_length, hxs]
    · simp [R.split_length, hxs]
    · intro row hrow
      rw [List.mem_map] at hrow
      obtain ⟨pr, hpr, hpr2⟩ := hrow
      obtain ⟨a, b, rfl⟩ := exists_of_mem_zipWith hpr
      rw [← hpr2]
      exact one_chain_snd_length R rows hrows sqrt epsilon
        (score_func params) n_samples a b
  cases starter_xs with
  | some xs =>
    rw [ld_some_eq] at h
    by_cases hl : xs.length = n_chains
    · rw [if_pos hl] at h
      simp only [Except.ok.injEq, Prod.mk.injEq] at h
      obtain ⟨hB, hF, hSmp⟩ := h
      exact main xs hl hB.symm hF.symm hSmp.symm
    · rw [if_neg hl] at h
      exact absurd h (by simp)
  | none =>
    cases sample_shape with
    | none => exact absurd h (by simp [langevin_dynamics])
    | some sh =>
      rw [ld_none_eq] at h
      simp only [Except.ok.injEq, Prod.mk.injEq] at h
      obtain ⟨hB, hF, hSmp⟩ := h
      exact main ((R.normalB key n_chains).map fun v => init_scale • v)
        (by simp [R.normalB_length]) hB.symm hF.symm hSmp.symm

/-- Witness for C5 at a concrete input. -/
theorem c5_shapes_witness :
    ([(2 : Int)]).length = 1 ∧ ([(8 : Int)]).length = 1
    ∧ ([[(2 : Int)]]).length = 1
    ∧ ∀ row ∈ [[(2 : Int)]], row.length = 1 :=
  c5_shapes testRandom rows1 (fun _ => rfl) id 1 1 0 (1 : Int)
    (fun _ x => x) (0 : Int)
    (1 : Int) (some [(2 : Int)]) none [2] [8] [[2]] (by rfl)

/-- Counterexample to C5 as frozen: a successful one-chain, one-step run
at the rank-2 per-sample shape `(2, 2)` returns a samples array whose
single trajectory has two entries instead of `n_samples = 1` — the shape
is `(n_chains, n_samples * 2, 2)` rather than the claimed
`(n_chains, n_samples, *D)`. -/
theorem c5_shapes_counterexample :
    langevin_dynamics testRandom2 rows2 id 1 1 0 (1 : Int) (fun _ y => y)
        (0 : Int) (1 : Int) (some [mat 0]) none
      = Except.ok ([mat 0], [mat 4], [[row 0, row 0]])
    ∧ (([[row (0 : Int), row 0]]).getD 0 []).length ≠ 1 := by
  constructor
  · rfl
  · decide

/-- One chain depends on the pseudorandom model only through `normal`
and `split`. -/
lemma one_chain_congr (R R' : JaxRandom K S) (rows : S → List Row)
    (sqrt : α → α) (epsilon : α)
    (score_func : S → S) (n_samples : Nat)
    (hn : R.normal = R'.normal) (hs : R.split = R'.split) :
    langevin_dynamics_one_chain R rows sqrt epsilon score_func n_samples
      = langevin_dynamics_one_chain R' rows sqrt epsilon score_func
          n_samples
      := by
  have hi : inner R sqrt epsilon score_func
      = inner R' sqrt epsilon score_func := by
    funext a k
    unfold inner
    rw [hn]
  funext x k
  unfold langevin_dynamics_one_chain
  rw [hi, hs]

/-- C6: when `starter_xs` is supplied it is the starting batch: the
returned starting batch equals it exactly, and the whole run is
independent of `init_scale` and of the batched initialization draw
`normalB` (so neither the Gaussian initializer nor the key is consumed
to initialize chains — the key is still used for the per-chain splits). -/
theorem c6_starter_used_directly (R R' : JaxRandom K S)
    (rows : S → List Row) (sqrt : α → α)
    (n_chains n_samples : Nat) (key : K) (epsilon : α)
    (score_func : P → S → S) (params : P) (init_scale init_scale2 : α)
    (xs : List S) (sample_shape : Option (List Nat))
    (B F : List S) (Smp : List (List Row))
    (hn : R.normal = R'.normal) (hs : R.split = R'.split)
    (h : langevin_dynamics R rows sqrt n_chains n_samples key epsilon
        score_func params init_scale (some xs) sample_shape
      = Except.ok (B, F, Smp)) :
    langevin_dynamics R rows sqrt n_chains n_samples key epsilon score_func
        params init_scale (some xs) sample_shape
      = langevin_dynamics R' rows sqrt n_chains n_samples key epsilon
          score_func params init_scale2 (some xs) sample_shape
    ∧ B = xs := by
  constructor
  · rw [ld_some_eq, ld_some_eq,
      one_chain_congr R R' rows sqrt epsilon (score_func params) n_samples
        hn hs,
      hs]
  · rw [ld_some_eq] at h
    by_cases hl : xs.length = n_chains
    · rw [if_pos hl] at h
      simp only [Except.ok.injEq, Prod.mk.injEq] at h
      exact h.1.symm
    · rw [if_neg hl] at h
      exact absurd h (by simp)

/-- Witness for C6 at a concrete input. -/
theorem c6_starter_used_directly_witness :
    langevin_dynamics testRandom rows1 id 1 1 0 (1 : Int) (fun _ x => x)
        (0 : Int) 1 (some [2]) none
      = langevin_dynamics testRandom rows1 id 1 1 0 (1 : Int)
          (fun _ x => x) (0 : Int) 7 (some [2]) none
    ∧ [(2 : Int)] = [2] :=
  c6_starter_used_directly testRandom testRandom rows1 id 1 1 0 (1 : Int)
    (fun _ x => x) (0 : Int) 1 7 [2] none [2] [8] [[2]] rfl rfl (by rfl)

/-- C7 (amended to rank-1 per-sample shapes): if the score function
returns zero everywhere, each state in the chain equals the previous
state plus `sqrt(2 * epsilon)` times the standard-normal draw of that
step — the process degenerates to a pure random walk — and, when each
state is its own single `vstack` row (rank-1 case), the recorded
trajectory is exactly the sequence of those walk states.  For
rank-2-and-higher per-sample shapes the returned trajectory is the
`np.vstack`-flattened array, not the sequence of recorded steps, and the
original claim about trajectory entries fails (see the
counterexample). -/
theorem c7_zero_score_random_walk (R : JaxRandom K S)
    (rows : S → List S) (hrows : ∀ y, rows y = [y]) (sqrt : α → α)
    (epsilon : α) (score_func : S → S) (n_samples : Nat) (x : S) (key : K)
    (t : Nat) (k0 : K) (ht : t < n_samples)
    (hscore : ∀ y, score_func y = 0) :
    chainState R sqrt epsilon score_func x (R.split key n_samples) (t + 1)
      = chainState R sqrt epsilon score_func x (R.split key n_samples) t
        + sqrt (2 * epsilon)
          • R.normal ((R.split key n_samples).getD t k0)
    ∧ (langevin_dynamics_one_chain R rows sqrt epsilon score_func
        n_samples x key).2
      = ((List.range n_samples).map fun s =>
          chainState R sqrt epsilon score_func x (R.split key n_samples) s)
    ∧ (langevin_dynamics_one_chain R rows sqrt epsilon score_func
        n_samples x key).1
      = chainState R sqrt epsilon score_func x (R.split key n_samples)
          n_samples := by
  have h2 := one_chain_spec R rows sqrt epsilon score_func n_samples x key
  rw [vstack_id rows hrows] at h2
  refine ⟨?_, congrArg Prod.snd h2, congrArg Prod.fst h2⟩
  rw [chainState_succ R sqrt epsilon score_func x (R.split key n_samples)
    t (by rw [R.split_length]; exact ht) k0]
  unfold stepOnce
  rw [hscore, smul_zero, add_zero]

/-- Witness for C7 at a concrete input. -/
theorem c7_zero_score_random_walk_witness :
    chainState testRandom id (1 : Int) (fun _ => 0) 3
        (testRandom.split 0 1) (0 + 1)
      = chainState testRandom id (1 : Int) (fun _ => 0) 3
          (testRandom.split 0 1) 0
        + id (2 * 1 : Int) • testRandom.normal ((testRandom.split 0 1).getD 0 0)
    ∧ (langevin_dynamics_one_chain testRandom rows1 id (1 : Int)
        (fun _ => 0) 1 3 0).2
      = ((List.range 1).map fun s =>
          chainState testRandom id (1 : Int) (fun _ => 0) 3
            (testRandom.split 0 1) s)
    ∧ (langevin_dynamics_one_chain testRandom rows1 id (1 : Int)
        (fun _ => 0) 1 3 0).1
      = chainState testRandom id (1 : Int) (fun _ => 0) 3
          (testRandom.split 0 1) 1 :=
  c7_zero_score_random_walk testRandom rows1 (fun _ => rfl) id (1 : Int)
    (fun _ => 0) 1 3 0 0 0 (by decide) (fun _ => rfl)

/-- Counterexample to C7 as frozen: with the identically-zero score
function and a single step (`n_samples = 1`) at the rank-2 per-sample
shape `(2, 2)`, the recorded trajectory has two entries, so it is not
the random walk's sequence of recorded pre-update states (one entry per
step) that the claim describes. -/
theorem c7_zero_score_random_walk_counterexample :
    ((langevin_dynamics_one_chain testRandom2 rows2 id (1 : Int)
        (fun _ => 0) 1 (mat 3) 0).2).length ≠ 1 := by
  decide

/-- The sequential reference execution described by the spec: run the
per-chain function once per chain, chain `i` consuming the `i`-th
starting state and the `i`-th derived key, collecting results in input
order. -/
def run_chains_sequentially {A B C : Type} (f : A → B → C) :
    List A → List B → List C
  | [], _ => []
  | _ :: _, [] => []
  | x :: xs, k :: ks => f x k :: run_chains_sequentially f xs ks

/-- The vectorized map over chains agrees elementwise with the
sequential loop. -/
lemma zipWith_eq_run_chains_sequentially {A B C : Type} (f : A → B → C) :
    ∀ (xs : List A) (ks : List B),
      List.zipWith f xs ks = run_chains_sequentially f xs ks := by
  intro xs
  induction xs with
  | nil => intro ks; cases ks <;> rfl
  | cons x xs ih =>
    intro ks
    cases ks with
    | nil => rfl
    | cons k ks => simp [run_chains_sequentially, List.zipWith, ih]

/-- In-range `getD` of a mapped `zipWith` picks out the image of the
`i`-th elements. -/
lemma getD_map_zipWith {A B C D : Type} (f : A → B → C) (g2 : C → D) :
    ∀ (xs : List A) (ks : List B) (i : Nat), i < xs.length →
      i < ks.length → ∀ (d : D) (da : A) (db : B),
      ((List.zipWith f xs ks).map g2).getD i d
        = g2 (f (xs.getD i da) (ks.getD i db)) := by
  intro xs
  induction xs with
  | nil =>
    intro ks i hi
    simp at hi
  | cons x xs ih =>
    intro ks i hi hik d da db
    cases ks with
    | nil => simp at hik
    | cons k ks =>
      cases i with
      | zero => rfl
      | succ i =>
        simp only [List.zipWith, List.map, List.getD_cons_succ]
        exact ih ks i (by simpa using hi) (by simpa using hik) d da db

/-- The components of a successful run: the starting batch has leading
dimension `n_chains`, and the final samples and trajectories are the
stacked first and second outputs of the per-chain function applied, in
order, to the starting batch and the keys split from the top-level key. -/
lemma ld_ok_components (R : JaxRandom K S) (rows : S → List Row)
    (sqrt : α → α)
    (n_chains n_samples : Nat) (key : K) (epsilon : α)
    (score_func : P → S → S) (params : P) (init_scale : α)
    (starter_xs : Option (List S)) (sample_shape : Option (List Nat))
    (B F : List S) (Smp : List (List Row))
    (h : langevin_dynamics R rows sqrt n_chains n_samples key epsilon
        score_func params init_scale starter_xs sample_shape
      = Except.ok (B, F, Smp)) :
    B.length = n_chains
    ∧ F = (List.zipWith (langevin_dynamics_one_chain R rows sqrt epsilon
            (score_func params) n_samples) B (R.split key n_chains)).map
            Prod.fst
    ∧ Smp = (List.zipWith (langevin_dynamics_one_chain R rows sqrt epsilon
            (score_func params) n_samples) B (R.split key n_chains)).map
            Prod.snd := by
  cases starter_xs with
  | some xs =>
    rw [ld_some_eq] at h
    by_cases hl : xs.length = n_chains
    · rw [if_pos hl] at h
      simp only [Except.ok.injEq, Prod.mk.injEq] at h
      obtain ⟨hB, hF, hSmp⟩ := h
      subst hB
      exact ⟨hl, hF.symm, hSmp.symm⟩
    · rw [if_neg hl] at h
      exact absurd h (by simp)
  | none =>
    cases sample_shape with
    | none => exact absurd h (by simp [langevin_dynamics])
    | some sh =>
      rw [ld_none_eq] at h
      simp only [Except.ok.injEq, Prod.mk.injEq] at h
      obtain ⟨hB, hF, hSmp⟩ := h
      subst hB
      exact ⟨by simp [R.normalB_length], hF.symm, hSmp.symm⟩

/-- C8: on every successful run, the vectorized execution is
bit-identical to the sequential loop over chains (chain `i` consuming the
`i`-th substream split from the top-level key), and chain `i`'s entries
in all three returned arrays correspond to the `i`-th starting state and
the `i`-th derived key, in input order. -/
theorem c8_sequential_equivalence (R : JaxRandom K S)
    (rows : S → List Row) (sqrt : α → α)
    (n_chains n_samples : Nat) (key : K) (epsilon : α)
    (score_func : P → S → S) (params : P) (init_scale : α)
    (starter_xs : Option (List S)) (sample_shape : Option (List Nat))
    (B F : List S) (Smp : List (List Row)) (i : Nat) (k0 : K)
    (h : langevin_dynamics R rows sqrt n_chains n_samples key epsilon
        score_func params init_scale starter_xs sample_shape
      = Except.ok (B, F, Smp))
    (hi : i < n_chains) :
    F = (run_chains_sequentially (langevin_dynamics_one_chain R rows sqrt
          epsilon (score_func params) n_samples) B
          (R.split key n_chains)).map Prod.fst
    ∧ Smp = (run_chains_sequentially (langevin_dynamics_one_chain R rows
          sqrt epsilon (score_func params) n_samples) B
          (R.split key n_chains)).map Prod.snd
    ∧ F.getD i 0 = (langevin_dynamics_one_chain R rows sqrt epsilon
        (score_func params) n_samples (B.getD i 0)
        ((R.split key n_chains).getD i k0)).1
    ∧ Smp.getD i [] = (langevin_dynamics_one_chain R rows sqrt epsilon
        (score_func params) n_samples (B.getD i 0)
        ((R.split key n_chains).getD i k0)).2 := by
  obtain ⟨hBl, hF, hSmp⟩ := ld_ok_components R rows sqrt n_chains n_samples
    key epsilon score_func params init_scale starter_xs sample_shape B F
    Smp h
  have hkl := R.split_length key n_chains
  refine ⟨by rw [hF, zipWith_eq_run_chains_sequentially],
    by rw [hSmp, zipWith_eq_run_chains_sequentially], ?_, ?_⟩
  · rw [hF]
    exact getD_map_zipWith _ Prod.fst B (R.split key n_chains) i
      (by rw [hBl]; exact hi) (by rw [hkl]; exact hi) 0 0 k0
  · rw [hSmp]
    exact getD_map_zipWith _ Prod.snd B (R.split key n_chains) i
      (by rw [hBl]; exact hi) (by rw [hkl]; exact hi) [] 0 k0

/-- Witness for C8 at a concrete input. -/
theorem c8_sequential_equivalence_witness :
    [(8 : Int)] = (run_chains_sequentially (langevin_dynamics_one_chain
          testRandom rows1 id (1 : Int) ((fun _ x => x) (0 : Int)) 1) [2]
          (testRandom.split 0 1)).map Prod.fst
    ∧ [[(2 : Int)]] = (run_chains_sequentially (langevin_dynamics_one_chain
          testRandom rows1 id (1 : Int) ((fun _ x => x) (0 : Int)) 1) [2]
          (testRandom.split 0 1)).map Prod.snd
    ∧ ([(8 : Int)]).getD 0 0 = (langevin_dynamics_one_chain testRandom
        rows1 id
        (1 : Int) ((fun _ x => x) (0 : Int)) 1 (([(2 : Int)]).getD 0 0)
        ((testRandom.split 0 1).getD 0 0)).1
    ∧ ([[(2 : Int)]]).getD 0 [] = (langevin_dynamics_one_chain testRandom
        rows1 id (1 : Int) ((fun _ x => x) (0 : Int)) 1
        (([(2 : Int)]).getD 0 0)
        ((testRandom.split 0 1).getD 0 0)).2 :=
  c8_sequential_equivalence testRandom rows1 id 1 1 0 (1 : Int)
    (fun _ x => x)
    (0 : Int) 1 (some [2]) none [2] [8] [[2]] 0 0 (by rfl) (by decide)

/-- C9: a supplied starting batch whose leading dimension differs from
`n_chains` never silently produces a run — the call fails with the
`vmap` inconsistent-sizes error, and it fails that way exactly in that
case; when the leading dimension matches, the run proceeds with the
batch used exactly as supplied, with no re-derivation. -/
theorem c9_leading_dim_validation (R : JaxRandom K S)
    (rows : S → List Row) (sqrt : α → α)
    (n_chains n_samples : Nat) (key : K) (epsilon : α)
    (score_func : P → S → S) (params : P) (init_scale : α)
    (xs : List S) (sample_shape : Option (List Nat)) :
    (langevin_dynamics R rows sqrt n_chains n_samples key epsilon
        score_func params init_scale (some xs) sample_shape
      = Except.error SamplerError.vmapError
     ↔ xs.length ≠ n_chains)
    ∧ (xs.length = n_chains →
        langevin_dynamics R rows sqrt n_chains n_samples key epsilon
            score_func params init_scale (some xs) sample_shape
          = Except.ok (xs,
              (List.zipWith (langevin_dynamics_one_chain R rows sqrt
                epsilon
                (score_func params) n_samples) xs
                (R.split key n_chains)).map Prod.fst,
              (List.zipWith (langevin_dynamics_one_chain R rows sqrt
                epsilon
                (score_func params) n_samples) xs
                (R.split key n_chains)).map Prod.snd)) := by
  constructor
  · rw [ld_some_eq]
    by_cases hl : xs.length = n_chains <;> simp [hl]
  · intro hl
    rw [ld_some_eq, if_pos hl]

/-- Witness for C9 at a concrete input. -/
theorem c9_leading_dim_validation_witness :
    (langevin_dynamics testRandom rows1 id 1 1 0 (1 : Int) (fun _ x => x)
        (0 : Int) 1 (some [3]) none
      = Except.error SamplerError.vmapError
     ↔ ([(3 : Int)]).length ≠ 1)
    ∧ (([(3 : Int)]).length = 1 →
        langevin_dynamics testRandom rows1 id 1 1 0 (1 : Int)
            (fun _ x => x)
            (0 : Int) 1 (some [3]) none
          = Except.ok ([3],
              (List.zipWith (langevin_dynamics_one_chain testRandom rows1
                id
                (1 : Int) ((fun _ x => x) (0 : Int)) 1) [3]
                (testRandom.split 0 1)).map Prod.fst,
              (List.zipWith (langevin_dynamics_one_chain testRandom rows1
                id
                (1 : Int) ((fun _ x => x) (0 : Int)) 1) [3]
                (testRandom.split 0 1)).map Prod.snd)) :=
  c9_leading_dim_validation testRandom rows1 id 1 1 0 (1 : Int)
    (fun _ x => x)
    (0 : Int) 1 [3] none

/-- C10: with `starter_xs = None`, the starting batch is `init_scale`
times the batched standard-normal draw generated from the top-level key
itself, and that same unsplit top-level key is the one split into the
`n_chains` per-chain substreams: both `normalB` and `split` below are
applied to the identical `key`, not to disjoint splits of it. -/
theorem c10_init_and_chains_share_key (R : JaxRandom K S)
    (rows : S → List Row) (sqrt : α → α)
    (n_chains n_samples : Nat) (key : K) (epsilon : α)
    (score_func : P → S → S) (params : P) (init_scale : α)
    (sh : List Nat) :
    langevin_dynamics R rows sqrt n_chains n_samples key epsilon score_func
        params init_scale none (some sh)
      = Except.ok ((R.normalB key n_chains).map fun v => init_scale • v,
          (List.zipWith
            (langevin_dynamics_one_chain R rows sqrt epsilon
              (score_func params)
              n_samples)
            ((R.normalB key n_chains).map fun v => init_scale • v)
            (R.split key n_chains)).map Prod.fst,
          (List.zipWith
            (langevin_dynamics_one_chain R rows sqrt epsilon
              (score_func params)
              n_samples)
            ((R.normalB key n_chains).map fun v => init_scale • v)
            (R.split key n_chains)).map Prod.snd) :=
  ld_none_eq R rows sqrt n_chains n_samples key epsilon score_func params
    init_scale sh

end ScoreModels
